import Mathlib

set_option maxRecDepth 100000

/-
Verification of the data-transformation core of the uk-fuel-price-map
single-page application (src/App.tsx).

Modelling conventions:
* JavaScript numbers are modelled by the inductive type JSNum: NaN,
  signed infinity, or a finite rational.  The decimal literals accepted by
  Number.parseFloat denote exact rationals, so the rational model is exact
  for every string the parser accepts (we do not model double rounding or
  overflow to infinity at astronomically large exponents).
* Records (Record<string, string>) are association lists; lookup returns
  the first binding.  A missing key behaves like the empty string wherever
  the source only tests truthiness, mirroring `row[k] ?? ""` / `row[k] || d`.
* Number.prototype.toFixed follows its specification: the sign is
  extracted first; a magnitude of at least 10^21 falls back to the plain
  number-to-string rendering (exponential notation, no fixed decimals);
  otherwise the magnitude is rounded to the nearest multiple of 10^(-f),
  ties toward the larger numerator, and printed with exactly f decimals.
* Template-literal conversion of a number to a string is modelled by
  jsNumRepr, an exact decimal rendering (every parsed value is a decimal
  fraction, so an exact finite rendering exists).
-/

/-- A JavaScript number as far as the app observes it: NaN, an infinity
with its sign, or a finite value (modelled as an exact rational). -/
inductive JSNum where
  | nan : JSNum
  | inf : Bool → JSNum
  | num : ℚ → JSNum
deriving DecidableEq

/-- Number.isFinite: true exactly on finite numbers. -/
def JSNum.isFinite : JSNum → Bool
  | JSNum.num _ => true
  | _ => false

/-- The whitespace characters skipped by parseFloat / trimStart
(space, tab, line feed, carriage return, vertical tab, form feed). -/
def isWS (c : Char) : Bool :=
  c == ' ' || c == '\t' || c == '\n' || c == '\r' ||
    c == Char.ofNat 11 || c == Char.ofNat 12

/-- Numeric value of a decimal digit character. -/
def digitVal (c : Char) : Nat := c.toNat - 48

/-- The natural number denoted by a list of decimal digit characters. -/
def natOfDigits (ds : List Char) : Nat :=
  ds.foldl (fun a c => a * 10 + digitVal c) 0

/-- Parse an optional exponent part (e or E, optional sign, digits) at the
head of the character list; an exponent marker not followed by at least one
digit is ignored, as parseFloat takes the longest valid numeric prefix. -/
def parseExponent (l : List Char) : Int :=
  match l with
  | c :: rest =>
    if c == 'e' || c == 'E' then
      let signAndRest : Int × List Char :=
        match rest with
        | '+' :: r => (1, r)
        | '-' :: r => (-1, r)
        | r => (1, r)
      let ds := signAndRest.2.takeWhile Char.isDigit
      if ds.isEmpty then 0 else signAndRest.1 * (natOfDigits ds : Int)
    else 0
  | [] => 0

/-- Number.parseFloat: skip leading whitespace, read an optional sign, then
the longest prefix that is Infinity or a decimal literal
(digits, optional fraction, optional exponent); NaN when no digits occur. -/
def parseFloat (s : String) : JSNum :=
  let l := s.data.dropWhile isWS
  let signAndRest : Bool × List Char :=
    match l with
    | '-' :: r => (true, r)
    | '+' :: r => (false, r)
    | r => (false, r)
  let neg := signAndRest.1
  let l1 := signAndRest.2
  if ("Infinity".data).isPrefixOf l1 then JSNum.inf neg
  else
    let ds1 := l1.takeWhile Char.isDigit
    let r1 := l1.dropWhile Char.isDigit
    let fracAndRest : List Char × List Char :=
      match r1 with
      | '.' :: r => (r.takeWhile Char.isDigit, r.dropWhile Char.isDigit)
      | r => ([], r)
    let ds2 := fracAndRest.1
    if ds1.isEmpty && ds2.isEmpty then JSNum.nan
    else
      let e := parseExponent fracAndRest.2
      -- the exact value (integer digits . fraction digits) × 10 ^ e,
      -- assembled as the single fraction
      -- (ds1 digits followed by ds2 digits) × 10 ^ (e - |ds2|)
      let sig : Nat := natOfDigits ds1 * 10 ^ ds2.length + natOfDigits ds2
      let ee : Int := e - (ds2.length : Int)
      let v : ℚ :=
        if 0 ≤ ee then mkRat (Int.ofNat (sig * 10 ^ ee.toNat)) 1
        else mkRat (Int.ofNat sig) (10 ^ (-ee).toNat)
      JSNum.num (if neg then -v else v)

/-- toNumber from App.tsx: parseFloat filtered through Number.isFinite,
null (none) on NaN or infinity. -/
def toNumber (value : String) : Option ℚ :=
  match parseFloat value with
  | JSNum.num q => some q
  | _ => none

/-- toPounds from App.tsx: the parsed price divided by 100, or null when
the string does not parse to a finite number. -/
def toPounds (value : String) : Option ℚ :=
  match parseFloat value with
  | JSNum.num q => some (q / 100)
  | _ => none

/-- A decimal digit character (the only values this development feeds it
are below ten; the catch-all keeps the function total). -/
def digitChar : Nat → Char
  | 0 => '0'
  | 1 => '1'
  | 2 => '2'
  | 3 => '3'
  | 4 => '4'
  | 5 => '5'
  | 6 => '6'
  | 7 => '7'
  | 8 => '8'
  | 9 => '9'
  | _ => '*'

/-- Fuel-bounded most-significant-first decimal digits of a natural. -/
def natDigitsF : Nat → Nat → List Char
  | 0, _ => []
  | fuel + 1, n =>
    if n < 10 then [digitChar n]
    else natDigitsF fuel (n / 10) ++ [digitChar (n % 10)]

/-- Decimal rendering of a natural number. -/
def natRepr (n : Nat) : String := String.mk (natDigitsF (n + 1) n)

/-- Exactly f decimal digit characters: the value of n modulo 10 ^ f,
left-padded with zeros, most significant first. -/
def padDigits (n : Nat) : Nat → List Char
  | 0 => []
  | f + 1 => digitChar (n / 10 ^ f % 10) :: padDigits n f

/-- The number-to-string rendering used by the toFixed fallback for
magnitudes of at least 10 ^ 21: JavaScript ToString emits exponential
notation there (the significant digits, then e+, then the decimal
exponent).  Written for the nonnegative decimal fractions that branch
receives; total elsewhere. -/
def jsExpRepr (q : ℚ) : String :=
  let n := q.num.natAbs
  let d := q.den
  let k := ((List.range (d + 1)).find? (fun k => d ∣ 10 ^ k)).getD 0
  let m := n * 10 ^ k / d
  let D := natDigitsF (m + 1) m
  let sig := (D.reverse.dropWhile (fun c => c == '0')).reverse
  let e : Int := (D.length : Int) - 1 - (k : Int)
  match sig with
  | [] => "0"
  | c :: [] => String.mk [c] ++ "e+" ++ natRepr e.toNat
  | c :: rest => String.mk [c] ++ "." ++ String.mk rest ++ "e+" ++ natRepr e.toNat

/-- Number.prototype.toFixed on the exact rational model, following the
specification: a negative value emits a sign and formats its magnitude; a
magnitude of at least 10 ^ 21 falls back to the plain number-to-string
rendering (exponential notation, no fixed decimal places); otherwise the
magnitude is rounded to the nearest multiple of 10 ^ (-f) (ties toward
the larger numerator) and printed with exactly f digits after the
decimal point (no point when f = 0). -/
def toFixedStr (x : ℚ) (f : Nat) : String :=
  let s : String := if x < 0 then "-" else ""
  let ax : ℚ := if x < 0 then -x else x
  if 10 ^ 21 ≤ ax then s ++ jsExpRepr ax
  else
    let n : Nat := (⌊ax * (10 : ℚ) ^ f + 1 / 2⌋).toNat
    if f = 0 then s ++ natRepr n
    else s ++ natRepr (n / 10 ^ f) ++ "." ++ String.mk (padDigits (n % 10 ^ f) f)

/-- formatPriceLabel from App.tsx: pounds to two decimal places, prefixed
by the pound sign; the raw string when it does not parse finite. -/
def formatPriceLabel (value : String) : String :=
  match parseFloat value with
  | JSNum.num q => "£" ++ toFixedStr (q / 100) 2
  | _ => value

/-- The apostrophe character. -/
def apos : Char := Char.ofNat 39

/-- normalizePrice from App.tsx: value.replace of the leading run of
apostrophes by the empty string. -/
def normalizePrice (value : String) : String :=
  String.mk (value.data.dropWhile (fun c => c == apos))

/-- A string-to-string record (Record<string, string>), as an association
list in insertion order; lookup returns the first binding. -/
abbrev Rec : Type := List (String × String)

/-- Record lookup: undefined (none) when the key is absent. -/
def rowGet (row : Rec) (k : String) : Option String :=
  (List.find? (fun kv => kv.1 == k) row).map (fun kv => kv.2)

/-- Record lookup defaulted to the empty string: row[k] ?? "", which the
source only ever tests for truthiness or uses when truthy. -/
def rowGetD (row : Rec) (k : String) : String := (rowGet row k).getD ""

/-- JavaScript v || d for strings v (undefined already mapped to ""):
the default when v is falsy, v otherwise. -/
def orDefault (v d : String) : String := if v == "" then d else v

/-- The six expected fuel-price columns, in source order. -/
def priceKeys : List String :=
  ["forecourts.fuel_price.E5",
   "forecourts.fuel_price.E10",
   "forecourts.fuel_price.B7P",
   "forecourts.fuel_price.B7S",
   "forecourts.fuel_price.B10",
   "forecourts.fuel_price.HVO"]

/-- The preferred fuel-type order shared by getDisplayPrice and
getDisplayPriceValue. -/
def preferredFuels : List String := ["E10", "E5", "B7S", "B7P", "B10", "HVO"]

/-- The for-of loop shared by getDisplayPrice and getDisplayPriceValue:
the first truthy value among the given keys, none when there is none. -/
def lookupPref : List String → Rec → Option String
  | [], _ => none
  | k :: ks, p =>
    let value := rowGetD p k
    if value == "" then lookupPref ks p else some value

/-- getDisplayPrice from App.tsx: the formatted label of the first truthy
preferred price, null when every preferred key is falsy. -/
def getDisplayPrice (prices : Rec) : Option String :=
  match lookupPref preferredFuels prices with
  | some value => some (formatPriceLabel value)
  | none => none

/-- getDisplayPriceValue from App.tsx: toPounds of the first truthy
preferred price, null when every preferred key is falsy. -/
def getDisplayPriceValue (prices : Rec) : Option ℚ :=
  match lookupPref preferredFuels prices with
  | some value => toPounds value
  | none => none

/-- The color returned by priceToColor: either the fixed hex fallback
string or an hsl color with the given hue (the saturation and lightness
are the constants 70 and 45 in the template literal). -/
inductive ColorOut where
  | hex : String → ColorOut
  | hsl : ℚ → ColorOut
deriving DecidableEq

/-- priceToColor from App.tsx (parameters named min and max in the
source): the fixed green when the value is not finite or min = max,
otherwise hue 120 - 120 * t with t the interpolation parameter clamped
to the unit interval. -/
def priceToColor (value : JSNum) (mn mx : ℚ) : ColorOut :=
  match value with
  | JSNum.num q =>
    if mn = mx then ColorOut.hex "#16a34a"
    else
      let t := min 1 (max 0 ((q - mn) / (mx - mn)))
      ColorOut.hsl (120 - 120 * t)
  | _ => ColorOut.hex "#16a34a"

/-- Template-literal rendering of a finite JavaScript number whose value
is a decimal fraction (every coordinate the app parses is one): sign,
integer digits, and the exact fractional digits with trailing zeros
dropped. -/
def jsNumRepr (q : ℚ) : String :=
  let sign : String := if q < 0 then "-" else ""
  let n := q.num.natAbs
  let d := q.den
  let k := ((List.range (d + 1)).find? (fun k => d ∣ 10 ^ k)).getD 0
  let m := n * 10 ^ k / d
  let ip := m / 10 ^ k
  let fp := m % 10 ^ k
  let fracDigits := ((padDigits fp k).reverse.dropWhile (fun c => c == '0')).reverse
  if fracDigits.isEmpty then sign ++ natRepr ip
  else sign ++ natRepr ip ++ "." ++ String.mk fracDigits

/-- The FuelPoint record from App.tsx. -/
structure FuelPoint where
  id : String
  lat : ℚ
  lng : ℚ
  tradingName : String
  brand : String
  address : String
  postcode : String
  updated : String
  prices : Rec
  hasPrices : Bool
  displayPrice : Option String
  displayPriceValue : Option ℚ
deriving DecidableEq

/-- [a, b, c, d].filter(Boolean).join(", ") on already-defaulted cells. -/
def joinNonEmpty (parts : List String) : String :=
  String.intercalate ", " (parts.filter (fun s => !(s == "")))

/-- The prices record of a row: for each expected fuel-price column in
order, when the raw cell is truthy, bind the last dot component of the
column name to the normalized cell. -/
def buildPrices (row : Rec) : Rec :=
  priceKeys.filterMap (fun key =>
    let value := rowGetD row key
    if value == "" then none
    else some ((key.splitOn ".").getLastD key, normalizePrice value))

/-- The body of the row loop in handleFile: none (continue) when either
coordinate fails to parse finite, otherwise the constructed FuelPoint. -/
def mkPoint (row : Rec) : Option FuelPoint :=
  match toNumber (rowGetD row "forecourts.location.latitude"),
        toNumber (rowGetD row "forecourts.location.longitude") with
  | some lat, some lng =>
    let prices := buildPrices row
    let hasPrices := !(List.isEmpty prices)
    some
      { id := orDefault (rowGetD row "forecourts.node_id")
          (jsNumRepr lat ++ "," ++ jsNumRepr lng)
        lat := lat
        lng := lng
        tradingName := orDefault (rowGetD row "forecourts.trading_name") "Unknown site"
        brand := orDefault (rowGetD row "forecourts.brand_name") "Unknown brand"
        address := joinNonEmpty
          [rowGetD row "forecourts.location.address_line_1",
           rowGetD row "forecourts.location.address_line_2",
           rowGetD row "forecourts.location.city",
           rowGetD row "forecourts.location.county"]
        postcode := rowGetD row "forecourts.location.postcode"
        updated := rowGetD row "latest_update_timestamp"
        prices := prices
        hasPrices := hasPrices
        displayPrice := if hasPrices then getDisplayPrice prices else none
        displayPriceValue := if hasPrices then getDisplayPriceValue prices else none }
  | _, _ => none

/-- The whole row loop: rows that fail the coordinate check are skipped,
the rest are pushed in order. -/
def buildPoints (rows : List Rec) : List FuelPoint :=
  rows.filterMap mkPoint

/-- The result Papa.parse hands to the complete callback: the error
messages and the parsed data rows. -/
structure PapaResult where
  errors : List String
  data : List Rec

/-- The view state the claims observe: the parse error message (empty
string when unset) and the point list. -/
structure AppState where
  parseError : String
  rows : List FuelPoint
deriving DecidableEq

/-- The message shown when the heuristic rejects the file. -/
def notCsvMsg : String :=
  "This file does not look like the CSV (it looks like HTML or has no commas). Please re-download the CSV and try again."

/-- text.trimStart. -/
def trimStartS (s : String) : String := String.mk (s.data.dropWhile isWS)

/-- s.startsWith on the character-list model. -/
def startsWithS (s pre : String) : Bool := pre.data.isPrefixOf s.data

/-- The heuristic in handleFile: reject when the left-trimmed text has no
comma or starts like an HTML document. -/
def heuristicRejects (text : String) : Bool :=
  !((trimStartS text).data.contains ',') ||
    startsWithS (trimStartS text) "<!DOCTYPE" ||
    startsWithS (trimStartS text) "<html"

/-- The reader.onload body of handleFile, from the loaded text onward:
reject non-CSV-looking text with the fixed message and an empty point
list without parsing; otherwise parse (papa stands for Papa.parse), report
the first parse error if any, and build the points. -/
def handleFileText (text : String) (papa : String → PapaResult) : AppState :=
  if heuristicRejects text then { parseError := notCsvMsg, rows := [] }
  else
    let results := papa text
    { parseError := (results.errors.head?).getD ""
      rows := buildPoints results.data }

/-- priceRange from App.tsx: none when no row has a numeric display
price, otherwise the 10th and 90th percentiles (by index floor) of the
ascending-sorted numeric display prices. -/
def priceRange (rows : List FuelPoint) : Option (ℚ × ℚ) :=
  let values := rows.filterMap (fun row => row.displayPriceValue)
  if values.isEmpty then none
  else
    let sorted := List.insertionSort (fun a b => a ≤ b) values
    let pick : ℚ → ℚ := fun p =>
      sorted.getD (Int.toNat ⌊p * ((sorted.length : ℚ) - 1)⌋) 0
    some (pick (1 / 10), pick (9 / 10))

/-- A point carrying only a numeric display price, used by the C1
witness. -/
def wpt (v : ℚ) : FuelPoint :=
  { id := "w", lat := 0, lng := 0, tradingName := "", brand := "", address := "",
    postcode := "", updated := "", prices := [], hasPrices := true,
    displayPrice := none, displayPriceValue := some v }

/-- The row used by the C9 counterexample: valid coordinates and an E5
cell consisting of a single apostrophe. -/
def cexRow9 : Rec :=
  [("forecourts.location.latitude", "51"),
   ("forecourts.location.longitude", "0"),
   ("forecourts.fuel_price.E5", String.mk [apos])]

/-- A concrete Papa.parse stand-in used by witnesses. -/
def wpapa : String → PapaResult := fun _ => { errors := [], data := [] }

/-- The floor of one tenth of a natural number, as used by the percentile
index pick at p = 0.1. -/
theorem floor_tenth (m : Nat) : Int.toNat ⌊(1 / 10 : ℚ) * (m : ℚ)⌋ = m / 10 := by
  rw [Int.floor_toNat, show (1 / 10 : ℚ) * (m : ℚ) = (m : ℚ) / ((10 : ℕ) : ℚ) from by
    push_cast; ring]
  rw [Nat.floor_div_nat, Nat.floor_natCast]

/-- The floor of nine tenths of a natural number, as used by the
percentile index pick at p = 0.9. -/
theorem floor_ninetenths (m : Nat) :
    Int.toNat ⌊(9 / 10 : ℚ) * (m : ℚ)⌋ = 9 * m / 10 := by
  rw [Int.floor_toNat, show (9 / 10 : ℚ) * (m : ℚ) = ((9 * m : ℕ) : ℚ) / ((10 : ℕ) : ℚ)
    from by push_cast; ring]
  rw [Nat.floor_div_nat, Nat.floor_natCast]

/-- C1: priceRange is null exactly on an empty numeric display price
list; on a non-empty one it returns the entries of the ascending-sorted
value list at indices floor of 0.1 times (n - 1) and floor of 0.9 times
(n - 1), stated against any sorted permutation of the collected values. -/
theorem priceRange_percentiles (rows : List FuelPoint) :
    ((rows.filterMap fun r => r.displayPriceValue) = [] → priceRange rows = none) ∧
    (∀ s : List ℚ, s.Perm (rows.filterMap fun r => r.displayPriceValue) →
      s.Sorted (fun a b => a ≤ b) →
      (rows.filterMap fun r => r.displayPriceValue) ≠ [] →
      priceRange rows =
        some
          (s.getD (((rows.filterMap fun r => r.displayPriceValue).length - 1) / 10) 0,
           s.getD (9 * ((rows.filterMap fun r => r.displayPriceValue).length - 1) / 10) 0)) := by
  constructor
  · intro h
    simp [priceRange, h]
  · intro s hperm hsort hne
    have hsorted2 : List.Sorted (fun a b : ℚ => a ≤ b)
        (List.insertionSort (fun a b => a ≤ b)
          (rows.filterMap fun r => r.displayPriceValue)) :=
      List.sorted_insertionSort _ _
    have hperm2 : (List.insertionSort (fun a b => a ≤ b)
        (rows.filterMap fun r => r.displayPriceValue)).Perm
          (rows.filterMap fun r => r.displayPriceValue) :=
      List.perm_insertionSort _ _
    haveI : IsAntisymm ℚ (fun a b => a ≤ b) := ⟨fun a b hab hba => le_antisymm hab hba⟩
    have hs : s = List.insertionSort (fun a b => a ≤ b)
        (rows.filterMap fun r => r.displayPriceValue) :=
      List.eq_of_perm_of_sorted (hperm.trans hperm2.symm) hsort hsorted2
    have hlen1 : 1 ≤ (rows.filterMap fun r => r.displayPriceValue).length :=
      List.length_pos.mpr hne
    simp only [priceRange]
    rw [if_neg (by simpa [List.isEmpty_iff] using hne)]
    rw [← hs, hperm.length_eq,
      show (((rows.filterMap fun r => r.displayPriceValue).length : ℚ) - 1) =
          (((rows.filterMap fun r => r.displayPriceValue).length - 1 : ℕ) : ℚ) from by
        rw [Nat.cast_sub hlen1]; simp,
      floor_tenth, floor_ninetenths]

/-- C1 witness: three points with values three, one, two produce the
sorted list one, two, three, and the range picks indices zero and one. -/
theorem priceRange_percentiles_witness :
    priceRange [wpt 3, wpt 1, wpt 2] =
      some
        ([(1 : ℚ), 2, 3].getD
          ((([wpt 3, wpt 1, wpt 2].filterMap fun r => r.displayPriceValue).length - 1) / 10) 0,
         [(1 : ℚ), 2, 3].getD
          (9 * (([wpt 3, wpt 1, wpt 2].filterMap fun r => r.displayPriceValue).length - 1) / 10) 0) :=
  (priceRange_percentiles [wpt 3, wpt 1, wpt 2]).2 [1, 2, 3]
    (by with_unfolding_all decide) (by with_unfolding_all decide)
    (by with_unfolding_all decide)

/-- The first character of a dropWhile result does not satisfy the
predicate. -/
theorem head_dropWhile_false (p : Char → Bool) (l : List Char) (c : Char)
    (h : (l.dropWhile p).head? = some c) : p c = false := by
  induction l with
  | nil => simp [List.dropWhile] at h
  | cons a l ih =>
    rw [List.dropWhile_cons] at h
    by_cases ha : p a
    · rw [if_pos ha] at h
      exact ih h
    · rw [if_neg ha] at h
      simp at h
      subst h
      simpa using ha

/-- C9 amended: every binding of a retained row prices record comes from
an expected fuel-price column with a truthy cell; its key is the last dot
component of the column name, and its value is the cell with exactly the
leading run of apostrophes removed (so the value never starts with an
apostrophe, but it can be empty when the cell was only apostrophes). -/
theorem prices_values_normalized (row : Rec) (pt : FuelPoint)
    (h : mkPoint row = some pt) :
    ∀ kv ∈ pt.prices, ∃ k ∈ priceKeys,
      rowGetD row k ≠ "" ∧
      kv.1 = (k.splitOn ".").getLastD k ∧
      (∃ pre : List Char, (∀ c ∈ pre, c = apos) ∧
        (rowGetD row k).data = pre ++ kv.2.data) ∧
      kv.2.data.head? ≠ some apos := by
  cases h1 : toNumber (rowGetD row "forecourts.location.latitude") with
  | none => simp [mkPoint, h1] at h
  | some lat =>
    cases h2 : toNumber (rowGetD row "forecourts.location.longitude") with
    | none => simp [mkPoint, h1, h2] at h
    | some lng =>
      simp only [mkPoint, h1, h2, Option.some.injEq] at h
      subst h
      intro kv hkv
      simp only [buildPrices, List.mem_filterMap] at hkv
      obtain ⟨k, hk, hsome⟩ := hkv
      by_cases hc : rowGetD row k == ""
      · rw [if_pos hc] at hsome
        exact absurd hsome (by simp)
      · rw [if_neg hc] at hsome
        have hkv := Option.some.inj hsome
        subst hkv
        refine ⟨k, hk, by simpa using hc, rfl, ?_, ?_⟩
        · refine ⟨(rowGetD row k).data.takeWhile (fun c => c == apos), ?_, ?_⟩
          · intro c hcmem
            simpa using List.mem_takeWhile_imp hcmem
          · show (rowGetD row k).data = _ ++ (normalizePrice (rowGetD row k)).data
            rw [normalizePrice]
            exact (List.takeWhile_append_dropWhile (fun c => c == apos) _).symm
        · intro hhead
          have : (fun c => c == apos) apos = false :=
            head_dropWhile_false (fun c => c == apos) (rowGetD row k).data apos
              (by simpa [normalizePrice] using hhead)
          simp at this

/-- C9 counterexample: a cell consisting only of an apostrophe is truthy,
so it is retained, but normalization strips it to the empty string: the
stored price value is empty. -/
theorem prices_values_normalized_cex :
    (mkPoint cexRow9).map (fun pt => pt.prices.map (fun kv => kv.2)) =
      some [""] := by
  with_unfolding_all decide

/-- C9 amended witness: on the counterexample row the only binding indeed
comes from the E5 column, with the leading apostrophe run removed. -/
theorem prices_values_normalized_witness :
    ∃ k ∈ priceKeys,
      rowGetD cexRow9 k ≠ "" ∧
      ("E5", "").1 = (k.splitOn ".").getLastD k ∧
      (∃ pre : List Char, (∀ c ∈ pre, c = apos) ∧
        (rowGetD cexRow9 k).data = pre ++ ("E5", "").2.data) ∧
      ("E5", "").2.data.head? ≠ some apos :=
  prices_values_normalized cexRow9
    { id := "51,0", lat := 51, lng := 0, tradingName := "Unknown site",
      brand := "Unknown brand", address := "", postcode := "", updated := "",
      prices := [("E5", "")], hasPrices := true, displayPrice := none,
      displayPriceValue := none }
    (by with_unfolding_all decide) ("E5", "") (by with_unfolding_all decide)

/-- Appending around a comma never yields the empty string. -/
theorem mid_comma_ne_empty (a b : String) : a ++ "," ++ b ≠ "" := by
  intro hcontra
  have hd : (a ++ "," ++ b).data = ("" : String).data := congrArg String.data hcontra
  rw [show ("" : String).data = [] from rfl] at hd
  simp only [String.data_append] at hd
  simp at hd

/-- C10: a retained row keeps the node id column as its id when that cell
is truthy and otherwise gets the lat,lng rendering of its parsed
coordinates; the id is never empty; and two node-id-less points with
identical parsed coordinates get identical ids. -/
theorem point_id_spec (row : Rec) (pt : FuelPoint) (h : mkPoint row = some pt) :
    (rowGetD row "forecourts.node_id" ≠ "" →
      pt.id = rowGetD row "forecourts.node_id") ∧
    (rowGetD row "forecourts.node_id" = "" →
      pt.id = jsNumRepr pt.lat ++ "," ++ jsNumRepr pt.lng) ∧
    pt.id ≠ "" ∧
    (∀ row2 : Rec, ∀ pt2 : FuelPoint, mkPoint row2 = some pt2 →
      rowGetD row "forecourts.node_id" = "" →
      rowGetD row2 "forecourts.node_id" = "" →
      pt.lat = pt2.lat → pt.lng = pt2.lng → pt.id = pt2.id) := by
  have main : ∀ r : Rec, ∀ q : FuelPoint, mkPoint r = some q →
      (rowGetD r "forecourts.node_id" ≠ "" →
        q.id = rowGetD r "forecourts.node_id") ∧
      (rowGetD r "forecourts.node_id" = "" →
        q.id = jsNumRepr q.lat ++ "," ++ jsNumRepr q.lng) := by
    intro r q hq
    cases h1 : toNumber (rowGetD r "forecourts.location.latitude") with
    | none => simp [mkPoint, h1] at hq
    | some lat =>
      cases h2 : toNumber (rowGetD r "forecourts.location.longitude") with
      | none => simp [mkPoint, h1, h2] at hq
      | some lng =>
        simp only [mkPoint, h1, h2, Option.some.injEq] at hq
        subst hq
        constructor
        · intro hne
          show orDefault _ _ = _
          simp [orDefault, hne]
        · intro hemp
          show orDefault _ _ = _
          simp [orDefault, hemp]
  refine ⟨(main row pt h).1, (main row pt h).2, ?_, ?_⟩
  · by_cases hn : rowGetD row "forecourts.node_id" = ""
    · rw [(main row pt h).2 hn]
      exact mid_comma_ne_empty _ _
    · rw [(main row pt h).1 hn]
      exact hn
  · intro row2 pt2 h2 hn1 hn2 hlat hlng
    rw [(main row pt h).2 hn1, (main row2 pt2 h2).2 hn2, hlat, hlng]

/-- C10 witness: a row with a truthy node id cell keeps it as the id. -/
theorem point_id_spec_witness :
    FuelPoint.id
        { id := "N1", lat := 51, lng := 0, tradingName := "Unknown site",
          brand := "Unknown brand", address := "", postcode := "", updated := "",
          prices := [], hasPrices := false, displayPrice := none,
          displayPriceValue := none } =
      rowGetD
        [("forecourts.node_id", "N1"),
         ("forecourts.location.latitude", "51"),
         ("forecourts.location.longitude", "0")] "forecourts.node_id" :=
  (point_id_spec
      [("forecourts.node_id", "N1"),
       ("forecourts.location.latitude", "51"),
       ("forecourts.location.longitude", "0")]
      { id := "N1", lat := 51, lng := 0, tradingName := "Unknown site",
        brand := "Unknown brand", address := "", postcode := "", updated := "",
        prices := [], hasPrices := false, displayPrice := none,
        displayPriceValue := none }
      (by with_unfolding_all decide)).1 (by with_unfolding_all decide)

/-- C5: when the left-trimmed uploaded text has no comma, or starts with
the DOCTYPE marker, or starts with the html tag, the fixed error message
is set and the point list is emptied without consulting the parser (the
outcome is the same for every parser); otherwise the text is parsed and
the points are built from the parsed rows. -/
theorem handleFile_rejects_non_csv (text : String) (papa1 papa2 : String → PapaResult) :
    (((trimStartS text).data.contains ',' = false ∨
        startsWithS (trimStartS text) "<!DOCTYPE" = true ∨
        startsWithS (trimStartS text) "<html" = true) →
      handleFileText text papa1 = { parseError := notCsvMsg, rows := [] } ∧
        handleFileText text papa1 = handleFileText text papa2) ∧
    ((trimStartS text).data.contains ',' = true ∧
        startsWithS (trimStartS text) "<!DOCTYPE" = false ∧
        startsWithS (trimStartS text) "<html" = false →
      (handleFileText text papa1).rows = buildPoints (papa1 text).data ∧
        (handleFileText text papa1).parseError = ((papa1 text).errors.head?).getD "") := by
  constructor
  · intro h
    have hrej : heuristicRejects text = true := by
      unfold heuristicRejects
      rcases h with h | h | h <;> rw [h] <;> simp
    constructor <;> simp [handleFileText, hrej]
  · rintro ⟨h1, h2, h3⟩
    have hrej : heuristicRejects text = false := by
      unfold heuristicRejects
      rw [h1, h2, h3]
      rfl
    constructor <;> simp [handleFileText, hrej]

/-- C5 witness: a text that starts with the html tag is rejected with the
fixed message and an empty point list. -/
theorem handleFile_rejects_non_csv_witness :
    handleFileText "  <html>x,y" wpapa = { parseError := notCsvMsg, rows := [] } :=
  ((handleFile_rejects_non_csv "  <html>x,y" wpapa wpapa).1
    (by with_unfolding_all decide)).1

/-- C2: a row becomes a point exactly when both coordinate cells parse to
finite numbers; the point carries exactly those parsed (finite) values;
every point in the built list comes from such a row; and skipped rows
leave the error message untouched (the message depends only on the parse
errors the CSV parser reports). -/
theorem point_iff_finite_coords (rows : List Rec) :
    (∀ row : Rec, (mkPoint row).isSome =
      ((toNumber (rowGetD row "forecourts.location.latitude")).isSome &&
        (toNumber (rowGetD row "forecourts.location.longitude")).isSome)) ∧
    (∀ row : Rec, ∀ pt : FuelPoint, mkPoint row = some pt →
      toNumber (rowGetD row "forecourts.location.latitude") = some pt.lat ∧
        toNumber (rowGetD row "forecourts.location.longitude") = some pt.lng) ∧
    (∀ pt ∈ buildPoints rows, ∃ row ∈ rows, mkPoint row = some pt) ∧
    (∀ text : String, ∀ papa : String → PapaResult, heuristicRejects text = false →
      (handleFileText text papa).parseError = ((papa text).errors.head?).getD "") := by
  refine ⟨?_, ?_, ?_, ?_⟩
  · intro row
    cases h1 : toNumber (rowGetD row "forecourts.location.latitude") <;>
      cases h2 : toNumber (rowGetD row "forecourts.location.longitude") <;>
        simp [mkPoint, h1, h2]
  · intro row pt h
    cases h1 : toNumber (rowGetD row "forecourts.location.latitude") with
    | none => simp [mkPoint, h1] at h
    | some lat =>
      cases h2 : toNumber (rowGetD row "forecourts.location.longitude") with
      | none => simp [mkPoint, h1, h2] at h
      | some lng =>
        simp only [mkPoint, h1, h2, Option.some.injEq] at h
        subst h
        exact ⟨by simp [h1], by simp [h2]⟩
  · intro pt hpt
    simpa [buildPoints, List.mem_filterMap] using hpt
  · intro text papa h
    simp [handleFileText, h]

/-- C2 witness: on accepted text the error message is exactly the first
parser error (here none, hence empty). -/
theorem point_iff_finite_coords_witness :
    (handleFileText "a,b" wpapa).parseError = (((wpapa "a,b").errors.head?).getD "") :=
  (point_iff_finite_coords []).2.2.2 "a,b" wpapa (by with_unfolding_all decide)

/-- lookupPref returns none when every key in the list maps to a falsy
cell. -/
theorem lookupPref_none (ks : List String) (p : Rec)
    (h : ∀ k ∈ ks, rowGetD p k = "") : lookupPref ks p = none := by
  induction ks with
  | nil => rfl
  | cons k ks ih =>
    have hk := h k (List.mem_cons_self k ks)
    simp only [lookupPref, hk]
    simpa using ih (fun k2 hk2 => h k2 (List.mem_cons_of_mem _ hk2))

/-- lookupPref returns the cell of the first key with a truthy cell. -/
theorem lookupPref_first (ks : List String) (p : Rec) :
    ∀ i : Nat, i < ks.length → rowGetD p (ks.getD i "") ≠ "" →
      (∀ j : Nat, j < i → rowGetD p (ks.getD j "") = "") →
      lookupPref ks p = some (rowGetD p (ks.getD i "")) := by
  induction ks with
  | nil => intro i hi; simp at hi
  | cons k ks ih =>
    intro i hi hne hprev
    cases i with
    | zero =>
      simp only [List.getD_cons_zero] at hne ⊢
      simp [lookupPref, hne]
    | succ i =>
      have h0 : rowGetD p k = "" := by simpa using hprev 0 (Nat.succ_pos i)
      simp only [List.getD_cons_succ] at hne ⊢
      simp only [lookupPref, h0, beq_self_eq_true, if_true]
      exact ih i (by simpa using hi) hne
        (fun j hj => by simpa using hprev (j + 1) (Nat.succ_lt_succ hj))

/-- lookupPref only looks at the cells of the listed keys. -/
theorem lookupPref_congr (ks : List String) (p1 p2 : Rec)
    (h : ∀ k ∈ ks, rowGetD p1 k = rowGetD p2 k) :
    lookupPref ks p1 = lookupPref ks p2 := by
  induction ks with
  | nil => rfl
  | cons k ks ih =>
    have hk := h k (List.mem_cons_self k ks)
    simp only [lookupPref, hk]
    cases hc : rowGetD p2 k == "" <;> simp [hc]
    exact ih (fun k2 hk2 => h k2 (List.mem_cons_of_mem _ hk2))

/-- C4: getDisplayPrice and getDisplayPriceValue walk the fuel keys in
the fixed order E10, E5, B7S, B7P, B10, HVO: both return none when every
preferred key is falsy, both derive their result from the first key with
a truthy value, and both depend only on the cells at the six preferred
keys (so equal records give equal outputs). -/
theorem getDisplayPrice_preferred_order :
    (∀ p : Rec, (∀ k ∈ preferredFuels, rowGetD p k = "") →
      getDisplayPrice p = none ∧ getDisplayPriceValue p = none) ∧
    (∀ p : Rec, ∀ i : Nat, i < preferredFuels.length →
      rowGetD p (preferredFuels.getD i "") ≠ "" →
      (∀ j : Nat, j < i → rowGetD p (preferredFuels.getD j "") = "") →
      getDisplayPrice p = some (formatPriceLabel (rowGetD p (preferredFuels.getD i ""))) ∧
        getDisplayPriceValue p = toPounds (rowGetD p (preferredFuels.getD i ""))) ∧
    (∀ p1 p2 : Rec, (∀ k ∈ preferredFuels, rowGetD p1 k = rowGetD p2 k) →
      getDisplayPrice p1 = getDisplayPrice p2 ∧
        getDisplayPriceValue p1 = getDisplayPriceValue p2) := by
  refine ⟨?_, ?_, ?_⟩
  · intro p h
    have := lookupPref_none preferredFuels p h
    constructor <;> simp [getDisplayPrice, getDisplayPriceValue, this]
  · intro p i hi hne hprev
    have := lookupPref_first preferredFuels p i hi hne hprev
    constructor <;> simp [getDisplayPrice, getDisplayPriceValue, this]
  · intro p1 p2 h
    have := lookupPref_congr preferredFuels p1 p2 h
    constructor <;> simp [getDisplayPrice, getDisplayPriceValue, this]

/-- C4 witness: with only E5 bound, the first truthy preferred key is E5
(index one), and both outputs derive from its value. -/
theorem getDisplayPrice_preferred_order_witness :
    getDisplayPrice [("E5", "141.9")] =
        some (formatPriceLabel (rowGetD [("E5", "141.9")] (preferredFuels.getD 1 ""))) ∧
      getDisplayPriceValue [("E5", "141.9")] =
        toPounds (rowGetD [("E5", "141.9")] (preferredFuels.getD 1 "")) :=
  getDisplayPrice_preferred_order.2.1 [("E5", "141.9")] 1
    (by with_unfolding_all decide) (by with_unfolding_all decide)
    (by with_unfolding_all decide)

/-- The prices record of a row is empty exactly when every expected
fuel-price column is falsy in the row. -/
theorem buildPrices_eq_nil (row : Rec) :
    buildPrices row = [] ↔ ∀ k ∈ priceKeys, rowGetD row k = "" := by
  rw [buildPrices, List.filterMap_eq_nil_iff]
  refine forall_congr' fun k => forall_congr' fun _ => ?_
  cases hc : rowGetD row k == "" <;> simp_all

/-- C6: a retained row has hasPrices set exactly when one of the six
expected fuel-price columns holds a truthy value, and when hasPrices is
false both derived display fields are null. -/
theorem hasPrices_iff (row : Rec) (pt : FuelPoint) (h : mkPoint row = some pt) :
    (pt.hasPrices = true ↔ ∃ k ∈ priceKeys, rowGetD row k ≠ "") ∧
    (pt.hasPrices = false → pt.displayPrice = none ∧ pt.displayPriceValue = none) := by
  cases h1 : toNumber (rowGetD row "forecourts.location.latitude") with
  | none => simp [mkPoint, h1] at h
  | some lat =>
    cases h2 : toNumber (rowGetD row "forecourts.location.longitude") with
    | none => simp [mkPoint, h1, h2] at h
    | some lng =>
      simp only [mkPoint, h1, h2, Option.some.injEq] at h
      subst h
      constructor
      · show (!(buildPrices row).isEmpty) = true ↔ _
        rw [Bool.not_eq_true', List.isEmpty_eq_false, ne_eq, buildPrices_eq_nil]
        push_neg
        simp
      · intro hfalse
        have : (!(buildPrices row).isEmpty) = false := hfalse
        constructor <;> simp only [this] <;> rfl

/-- C6 witness: a coordinate-only row yields a point with hasPrices
false, and the theorem then gives both display fields null. -/
theorem hasPrices_iff_witness :
    FuelPoint.displayPrice
        { id := "51,0", lat := 51, lng := 0, tradingName := "Unknown site",
          brand := "Unknown brand", address := "", postcode := "", updated := "",
          prices := [], hasPrices := false, displayPrice := none,
          displayPriceValue := none } = none ∧
      FuelPoint.displayPriceValue
        { id := "51,0", lat := 51, lng := 0, tradingName := "Unknown site",
          brand := "Unknown brand", address := "", postcode := "", updated := "",
          prices := [], hasPrices := false, displayPrice := none,
          displayPriceValue := none } = none :=
  (hasPrices_iff
      [("forecourts.location.latitude", "51"), ("forecourts.location.longitude", "0")]
      { id := "51,0", lat := 51, lng := 0, tradingName := "Unknown site",
        brand := "Unknown brand", address := "", postcode := "", updated := "",
        prices := [], hasPrices := false, displayPrice := none,
        displayPriceValue := none }
      (by with_unfolding_all decide)).2 (by with_unfolding_all decide)

/-- C8: when the first truthy preferred price string does not parse to a
finite number, getDisplayPriceValue is null without trying later keys,
while getDisplayPrice still returns that raw string; in particular a
record exists (with a parseable price under a later key) whose
displayPrice is non-null while its displayPriceValue is null. -/
theorem displayPriceValue_no_fallthrough :
    (∀ p : Rec, ∀ v : String, lookupPref preferredFuels p = some v →
      toNumber v = none →
      getDisplayPriceValue p = none ∧ getDisplayPrice p = some v) ∧
    (∃ p : Rec, (∃ k ∈ preferredFuels, toNumber (rowGetD p k) ≠ none) ∧
      getDisplayPrice p ≠ none ∧ getDisplayPriceValue p = none) := by
  constructor
  · intro p v hlk hnum
    cases hp : parseFloat v with
    | num q => simp [toNumber, hp] at hnum
    | nan =>
      constructor
      · simp [getDisplayPriceValue, hlk, toPounds, hp]
      · simp [getDisplayPrice, hlk, formatPriceLabel, hp]
    | inf b =>
      constructor
      · simp [getDisplayPriceValue, hlk, toPounds, hp]
      · simp [getDisplayPrice, hlk, formatPriceLabel, hp]
  · exact ⟨[("E10", "N/A"), ("E5", "139.9")], by with_unfolding_all decide⟩

/-- C8 witness: with E10 bound to an unparseable string and E5 to a
parseable one, the label is the raw E10 string and the numeric value is
null. -/
theorem displayPriceValue_no_fallthrough_witness :
    getDisplayPriceValue [("E10", "N/A"), ("E5", "139.9")] = none ∧
      getDisplayPrice [("E10", "N/A"), ("E5", "139.9")] = some "N/A" :=
  displayPriceValue_no_fallthrough.1 [("E10", "N/A"), ("E5", "139.9")] "N/A"
    (by with_unfolding_all decide) (by with_unfolding_all decide)

/-- C7: with a finite value and a range with min strictly below max,
priceToColor returns the hsl hue 120 - 120 * t for the clamped
interpolation parameter t; the hue lies in [0, 120], is 120 at or below
the minimum, 0 at or above the maximum, and is monotonically
non-increasing in the value; a non-finite value or an empty range gives
the fixed green. -/
theorem priceToColor_spec (mn mx : ℚ) (hlt : mn < mx) :
    (∀ v : JSNum, v.isFinite = false → priceToColor v mn mx = ColorOut.hex "#16a34a") ∧
    (∀ v : JSNum, ∀ m : ℚ, priceToColor v m m = ColorOut.hex "#16a34a") ∧
    (∀ q : ℚ,
      priceToColor (JSNum.num q) mn mx =
          ColorOut.hsl (120 - 120 * min 1 (max 0 ((q - mn) / (mx - mn)))) ∧
      ∃ h : ℚ,
        priceToColor (JSNum.num q) mn mx = ColorOut.hsl h ∧
        0 ≤ h ∧ h ≤ 120 ∧ (q ≤ mn → h = 120) ∧ (mx ≤ q → h = 0)) ∧
    (∀ q1 q2 h1 h2 : ℚ, q1 ≤ q2 →
      priceToColor (JSNum.num q1) mn mx = ColorOut.hsl h1 →
      priceToColor (JSNum.num q2) mn mx = ColorOut.hsl h2 → h2 ≤ h1) := by
  have hne : mn ≠ mx := ne_of_lt hlt
  have hpos : 0 < mx - mn := by linarith
  refine ⟨?_, ?_, ?_, ?_⟩
  · intro v hv
    cases v with
    | nan => rfl
    | inf b => rfl
    | num q => simp [JSNum.isFinite] at hv
  · intro v m
    cases v with
    | nan => rfl
    | inf b => rfl
    | num q => simp [priceToColor]
  · intro q
    have heq : priceToColor (JSNum.num q) mn mx =
        ColorOut.hsl (120 - 120 * min 1 (max 0 ((q - mn) / (mx - mn)))) := by
      simp [priceToColor, hne]
    refine ⟨heq, _, heq, ?_, ?_, ?_, ?_⟩
    · have h0 : (0 : ℚ) ≤ min 1 (max 0 ((q - mn) / (mx - mn))) :=
        le_min (by norm_num) (le_max_left 0 _)
      have h1 : min 1 (max 0 ((q - mn) / (mx - mn))) ≤ 1 := min_le_left 1 _
      linarith
    · have h0 : (0 : ℚ) ≤ min 1 (max 0 ((q - mn) / (mx - mn))) :=
        le_min (by norm_num) (le_max_left 0 _)
      linarith
    · intro hq
      have hnum : q - mn ≤ 0 := by linarith
      have hr : (q - mn) / (mx - mn) ≤ 0 := div_nonpos_of_nonpos_of_nonneg hnum hpos.le
      have : max 0 ((q - mn) / (mx - mn)) = 0 := max_eq_left hr
      rw [this]
      norm_num
    · intro hq
      have hr : (1 : ℚ) ≤ (q - mn) / (mx - mn) := by
        rw [le_div_iff₀ hpos]
        linarith
      have h0 : (0 : ℚ) ≤ (q - mn) / (mx - mn) := by linarith
      have hmax : max 0 ((q - mn) / (mx - mn)) = (q - mn) / (mx - mn) := max_eq_right h0
      rw [hmax, min_eq_left hr]
      ring
  · intro q1 q2 h1 h2 hle e1 e2
    have heq1 : priceToColor (JSNum.num q1) mn mx =
        ColorOut.hsl (120 - 120 * min 1 (max 0 ((q1 - mn) / (mx - mn)))) := by
      simp [priceToColor, hne]
    have heq2 : priceToColor (JSNum.num q2) mn mx =
        ColorOut.hsl (120 - 120 * min 1 (max 0 ((q2 - mn) / (mx - mn)))) := by
      simp [priceToColor, hne]
    rw [heq1] at e1
    rw [heq2] at e2
    injection e1 with e1
    injection e2 with e2
    have hdiv : (q1 - mn) / (mx - mn) ≤ (q2 - mn) / (mx - mn) :=
      (div_le_div_iff_of_pos_right hpos).mpr (by linarith)
    have hmax : max 0 ((q1 - mn) / (mx - mn)) ≤ max 0 ((q2 - mn) / (mx - mn)) :=
      max_le_max le_rfl hdiv
    have hmin : min 1 (max 0 ((q1 - mn) / (mx - mn))) ≤
        min 1 (max 0 ((q2 - mn) / (mx - mn))) :=
      min_le_min le_rfl hmax
    rw [← e1, ← e2]
    linarith

/-- C7 witness: at range 0 to 1 a value above the maximum gets some hue,
namely 0; the hue equation and the bounds are produced by the theorem at
the concrete input. -/
theorem priceToColor_spec_witness :
    ∃ h : ℚ,
      priceToColor (JSNum.num 2) 0 1 = ColorOut.hsl h ∧
      0 ≤ h ∧ h ≤ 120 ∧ ((2 : ℚ) ≤ 0 → h = 120) ∧ ((1 : ℚ) ≤ 2 → h = 0) :=
  ((priceToColor_spec 0 1 (by norm_num)).2.2.1 2).2
